import Mathlib

/-!
# quantonganh/news: ranking, engagement score and date parsing of `main.go`

A shallow embedding of `src/main.go`.  Pure code is embedded as functions.
The standard library and third-party calls the program makes
(`sort.Slice`, `json.Unmarshal`, `http.Client.Do`, `query.Values`,
`regexp`, `time.Parse`) are not part of the repository: `sort.Slice` and
the JSON and HTTP calls are parameters of the embedding, the regular
expression and the three time layouts are embedded from their documented
semantics.
-/

namespace News

/-! ## Data model -/

/-- Go `time.Time` holding a UTC instant, kept as its civil fields.  Every value
the program builds comes from `time.Parse` (which validates the fields, so
`time.Date` does not normalise them) or is the zero value. -/
structure Time where
  year : Int
  month : Nat
  day : Nat
  hour : Nat
  min : Nat
  sec : Nat
deriving DecidableEq, Repr

/-- The zero value `time.Time{}`: January 1, year 1, 00:00:00 UTC. -/
def Time.zero : Time := ⟨1, 1, 1, 0, 0, 0⟩

/-- The record `Article` of main.go (lines 28-33). -/
structure Article where
  URL : String
  Title : String
  Date : Time
  Likes : Int
deriving DecidableEq, Repr

/-! ## Ranking (main, lines 150-165) -/

/-- The closure given to `sort.Slice` (line 155):
`articles[i].Likes > articles[j].Likes`. -/
def likesLess (a b : Article) : Bool := decide (a.Likes > b.Likes)

/-- A strict weak ordering, what `sort.Slice` asks of its `less`. -/
def StrictWeakOrder {α : Type} (less : α → α → Bool) : Prop :=
  (∀ a, less a a = false) ∧
  (∀ a b c, less a b = true → less b c = true → less a c = true) ∧
  (∀ a b c, less a b = false → less b c = false → less a c = false)

/-- The contract of the library function `sort.Slice`: for a strict weak
ordering `less`, the result is a rearrangement of the slice in which no later
element is `less` than an earlier one.  The sort need not be stable. -/
def SortSliceContract {α : Type} (sortSlice : (α → α → Bool) → List α → List α) : Prop :=
  ∀ less xs, StrictWeakOrder less →
    (sortSlice less xs).Perm xs ∧ (sortSlice less xs).Pairwise (fun a b => less b a = false)

/-- Inner loop of Go's `insertionSortLessFunc`
(`for j := i; j > a && less(j, j-1); j-- { swap(j, j-1) }`), on the already
sorted prefix held in reverse (nearest neighbour first). -/
def insertRev {α : Type} (less : α → α → Bool) (x : α) : List α → List α
  | [] => [x]
  | p :: ps => if less x p then p :: insertRev less x ps else x :: p :: ps

/-- The insertion sort `sort.Slice` runs on short slices; one implementation
meeting `SortSliceContract`. -/
def insertionSortLess {α : Type} (less : α → α → Bool) (xs : List α) : List α :=
  (xs.foldl (fun acc x => insertRev less x acc) []).reverse

/-- The ranking step of `main`: `sort.Slice(articles, less)` (lines 154-156),
then `articles[:10]` when `n >= 10` and `articles[:n]` otherwise
(lines 160-165).  The result is the slice handed to the JSON encoder. -/
def rankArticles (sortSlice : (Article → Article → Bool) → List Article → List Article)
    (articles : List Article) : List Article :=
  let articles := sortSlice likesLess articles
  let n := articles.length
  if n ≥ 10 then articles.take 10 else articles.take n

/-- Three collected records, used to instantiate the ranking theorems. -/
def sampleArticles : List Article :=
  [⟨"https://vnexpress.net/a", "a", Time.zero, 3⟩,
   ⟨"https://vnexpress.net/b", "b", Time.zero, 0⟩,
   ⟨"https://vnexpress.net/c", "c", Time.zero, 7⟩]

/-- Twelve collected records with the Likes 5, 12, 1, 9, 3, 11, 7, 2, 10, 4, 8, 6, in the
order of arrival: more than the ten the ranking keeps. -/
def twelveArticles : List Article :=
  [5, 12, 1, 9, 3, 11, 7, 2, 10, 4, 8, 6].map
    (fun likes => (⟨"https://vnexpress.net/a", "a", Time.zero, likes⟩ : Article))

/-! ## Date parsing (parseDate, lines 168-181) -/

/-- The class `\d` of Go's regexp (RE2): the ASCII digits. -/
def isDigit (c : Char) : Bool := decide (48 ≤ c.toNat ∧ c.toNat ≤ 57)

/-- The class `\s` of Go's regexp (RE2): tab, newline, form feed, carriage
return and space. -/
def isSpace (c : Char) : Bool :=
  c == '\t' || c == '\n' || c == '\x0c' || c == '\r' || c == ' '

/-- Value of a digit character (`c - 48`, 48 the code of the digit zero). -/
def digitVal (c : Char) : Nat := c.toNat - 48

/-- The ways `\d{1,2}` can match at the head of the input, as (matched, rest),
the longer first (the quantifier is greedy). -/
def takeDigits12 : List Char → List (List Char × List Char)
  | [] => []
  | [c1] => if isDigit c1 then [([c1], [])] else []
  | c1 :: c2 :: r =>
    if isDigit c1 then
      if isDigit c2 then [([c1, c2], r), ([c1], c2 :: r)] else [([c1], c2 :: r)]
    else []

/-- The rest of the pattern once day and month are matched:
`/\d{4}),\s(\d{2}:\d{2})`.  Returns the two capture groups. -/
def matchTail (d m : List Char) : List Char → Option (List Char × List Char)
  | sl :: y1 :: y2 :: y3 :: y4 :: cm :: w :: h1 :: h2 :: co :: m1 :: m2 :: _ =>
    if sl == '/' && isDigit y1 && isDigit y2 && isDigit y3 && isDigit y4 && cm == ','
        && isSpace w && isDigit h1 && isDigit h2 && co == ':' && isDigit m1 && isDigit m2 then
      some (d ++ '/' :: m ++ ['/', y1, y2, y3, y4], [h1, h2, ':', m1, m2])
    else none
  | _ => none

/-- The part `/\d{1,2}` followed by the rest of the pattern, after the day. -/
def matchMonth (d : List Char) : List Char → Option (List Char × List Char)
  | [] => none
  | c :: r =>
    if c == '/' then (takeDigits12 r).findSome? (fun mr => matchTail d mr.1 mr.2) else none

/-- A match of `(\d{1,2}/\d{1,2}/\d{4}),\s(\d{2}:\d{2})` starting at the head
of the input: the capture groups 1 and 2 of the first match a backtracking
search finds. -/
def matchAt (s : List Char) : Option (List Char × List Char) :=
  (takeDigits12 s).findSome? (fun dr => matchMonth dr.1 dr.2)

/-- The call `re.FindStringSubmatch(s)`: the leftmost match, `none` for Go's nil. -/
def findStringSubmatch : List Char → Option (List Char × List Char)
  | [] => matchAt []
  | c :: cs =>
    match matchAt (c :: cs) with
    | some g => some g
    | none => findStringSubmatch cs

/-- The elements of a `time.Parse` layout that the three layouts of parseDate use. -/
inductive Chunk where
  | stdZeroDay
  | stdDay
  | stdZeroMonth
  | stdNumMonth
  | stdLongYear
  | stdHour
  | stdZeroMinute
  | lit (c : Char)
deriving DecidableEq, Repr

/-- The layout `"02/01/2006 15:04"`. -/
def layout1 : List Chunk :=
  [.stdZeroDay, .lit '/', .stdZeroMonth, .lit '/', .stdLongYear, .lit ' ', .stdHour, .lit ':',
    .stdZeroMinute]

/-- The layout `"02/1/2006 15:04"`. -/
def layout2 : List Chunk :=
  [.stdZeroDay, .lit '/', .stdNumMonth, .lit '/', .stdLongYear, .lit ' ', .stdHour, .lit ':',
    .stdZeroMinute]

/-- The layout `"2/1/2006 15:04"`. -/
def layout3 : List Chunk :=
  [.stdDay, .lit '/', .stdNumMonth, .lit '/', .stdLongYear, .lit ' ', .stdHour, .lit ':',
    .stdZeroMinute]

/-- The slice `layouts` of parseDate (line 169). -/
def layouts : List (List Chunk) := [layout1, layout2, layout3]

/-- Go's `getnum(s, fixed)` of package time: one or two leading digits, exactly
two when `fixed`. -/
def getnum (s : List Char) (fixed : Bool) : Option (Nat × List Char) :=
  match s with
  | [] => none
  | [c1] => if isDigit c1 then (if fixed then none else some (digitVal c1, [])) else none
  | c1 :: c2 :: r =>
    if isDigit c1 then
      if isDigit c2 then some (digitVal c1 * 10 + digitVal c2, r)
      else if fixed then none else some (digitVal c1, c2 :: r)
    else none

/-- The fields `time.Parse` collects.  Each of the three layouts sets all five,
so the initial values are never read. -/
structure Fields where
  year : Nat
  month : Nat
  day : Nat
  hour : Nat
  min : Nat
deriving DecidableEq, Repr

/-- Go's `isLeap`. -/
def isLeap (year : Nat) : Bool := year % 4 == 0 && (year % 100 != 0 || year % 400 == 0)

/-- Go's `daysIn(m, year)` for a month 1..12. -/
def daysIn (m year : Nat) : Nat :=
  if m = 2 then (if isLeap year then 29 else 28)
  else if m = 4 ∨ m = 6 ∨ m = 9 ∨ m = 11 then 30 else 31

/-- One element of the layout applied to the value, in `time.Parse`: `none` is
the error return (bad syntax or a field out of range). -/
def parseChunk (ch : Chunk) (value : List Char) (f : Fields) : Option (Fields × List Char) :=
  match ch with
  | .lit c =>
    if c = ' ' then
      match value with
      | [] => some (f, [])
      | v :: vs => if v = ' ' then some (f, (v :: vs).dropWhile (fun x => x == ' ')) else none
    else
      match value with
      | [] => none
      | v :: vs => if v = c then some (f, vs) else none
  | .stdZeroDay => (getnum value true).map (fun r => ({ f with day := r.1 }, r.2))
  | .stdDay => (getnum value false).map (fun r => ({ f with day := r.1 }, r.2))
  | .stdZeroMonth =>
    (getnum value true).bind (fun r =>
      if r.1 = 0 ∨ 12 < r.1 then none else some ({ f with month := r.1 }, r.2))
  | .stdNumMonth =>
    (getnum value false).bind (fun r =>
      if r.1 = 0 ∨ 12 < r.1 then none else some ({ f with month := r.1 }, r.2))
  | .stdLongYear =>
    match value with
    | y1 :: y2 :: y3 :: y4 :: r =>
      if isDigit y1 && isDigit y2 && isDigit y3 && isDigit y4 then
        let year := ((digitVal y1 * 10 + digitVal y2) * 10 + digitVal y3) * 10 + digitVal y4
        some ({ f with year := year }, r)
      else none
    | _ => none
  | .stdHour =>
    (getnum value false).bind (fun r =>
      if 24 ≤ r.1 then none else some ({ f with hour := r.1 }, r.2))
  | .stdZeroMinute =>
    (getnum value true).bind (fun r =>
      if 60 ≤ r.1 then none else some ({ f with min := r.1 }, r.2))

/-- The loop of `time.Parse` over the layout; text left over after the layout
is used up is the error "extra text". -/
def parseChunks : List Chunk → List Char → Fields → Option Fields
  | [], value, f => if value.isEmpty then some f else none
  | ch :: rest, value, f =>
    match parseChunk ch value f with
    | none => none
    | some (f2, value2) => parseChunks rest value2 f2

/-- The call `time.Parse(layout, value)` for a layout without zone: the fields
are read, the day of the month is validated, the result is
`Date(year, month, day, hour, min, 0, 0, UTC)`; `none` is a non-nil error. -/
def timeParse (layout : List Chunk) (value : List Char) : Option Time :=
  match parseChunks layout value ⟨0, 0, 0, 0, 0⟩ with
  | none => none
  | some f =>
    if f.day < 1 ∨ f.day > daysIn f.month f.year then none
    else some ⟨f.year, f.month, f.day, f.hour, f.min, 0⟩

/-- The body of parseDate on the characters of `s`: the first layout that parses
`fmt.Sprintf("%s %s", match[1], match[2])` gives the result, and the zero
time is returned when nothing matches or no layout parses. -/
def parseDateChars (s : List Char) : Time :=
  match findStringSubmatch s with
  | some (g1, g2) =>
    match layouts.findSome? (fun layout => timeParse layout (g1 ++ ' ' :: g2)) with
    | some d => d
    | none => Time.zero
  | none => Time.zero

/-- The function parseDate of main.go. -/
def parseDate (s : String) : Time := parseDateChars s.toList

/-! ## Date parsing: the vocabulary of the specification -/

/-- The character of a decimal digit `n < 10`. -/
def digitChar (n : Nat) : Char := Char.ofNat (48 + n)

/-- A number below 100 written with two digits, zero padded. -/
def twoDigits (n : Nat) : List Char := [digitChar (n / 10), digitChar (n % 10)]

/-- A number below 10000 written with four digits, zero padded. -/
def fourDigits (n : Nat) : List Char :=
  [digitChar (n / 1000), digitChar (n / 100 % 10), digitChar (n / 10 % 10), digitChar (n % 10)]

/-- The text `cs` writes the number `n` with one digit or with two digits. -/
def WrittenWith1Or2Digits (cs : List Char) (n : Nat) : Prop :=
  (n < 10 ∧ cs = [digitChar n]) ∨ (n < 100 ∧ cs = twoDigits n)

/-- The text `d/m/y, hh:mm` of a date and time, for the given spellings of day
and month. -/
def dateText (ds ms : List Char) (y hh mi : Nat) : String :=
  String.mk (ds ++ '/' :: ms ++ '/' :: fourDigits y ++ [',', ' '] ++ twoDigits hh
    ++ ':' :: twoDigits mi)

/-- Decimal value of a run of digits. -/
def decimal (cs : List Char) : Nat := cs.foldl (fun n c => n * 10 + digitVal c) 0

/-- The date and time fields read off the two capture groups of a match:
group 1 is `day/month/year`, group 2 is `hour:minute`. -/
def matchedFields (g : List Char × List Char) : Fields :=
  let ds := g.1.takeWhile (fun c => c != '/')
  let r := (g.1.dropWhile (fun c => c != '/')).drop 1
  let ms := r.takeWhile (fun c => c != '/')
  let ys := (r.dropWhile (fun c => c != '/')).drop 1
  let hs := g.2.takeWhile (fun c => c != ':')
  let mis := (g.2.dropWhile (fun c => c != ':')).drop 1
  ⟨decimal ys, decimal ms, decimal ds, decimal hs, decimal mis⟩

/-- The fields are a real calendar date and time of day: month 1..12, a day
that the month has in that year (Gregorian leap years), hour 0..23 and
minute 0..59. -/
def RealDateTime (f : Fields) : Prop :=
  1 ≤ f.month ∧ f.month ≤ 12 ∧ 1 ≤ f.day ∧ f.day ≤ daysIn f.month f.year ∧
    f.hour < 24 ∧ f.min < 60

instance (f : Fields) : Decidable (RealDateTime f) := by
  unfold RealDateTime; infer_instance

/-- The input starts with the given classes of characters, one per position. -/
def startsWithClasses : List (Char → Bool) → List Char → Bool
  | [], _ => true
  | _ :: _, [] => false
  | p :: ps, c :: cs => p c && startsWithClasses ps cs

/-- The part of the date form after the month: `/dddd,` one separator
character of the class `sp`, then `dd:dd`. -/
def tailForm (sp : Char → Bool) : List (Char → Bool) :=
  [fun c => c == '/', isDigit, isDigit, isDigit, isDigit, fun c => c == ',', sp,
    isDigit, isDigit, fun c => c == ':', isDigit, isDigit]

/-- The form `d{dl}/d{ml}/dddd,` separator `dd:dd` with `dl` day digits and
`ml` month digits; `sp` is the class of the character that separates the comma
from the hour. -/
def dateForm (sp : Char → Bool) (dl ml : Nat) : List (Char → Bool) :=
  List.replicate dl isDigit ++ (fun c => c == '/') :: List.replicate ml isDigit ++ tailForm sp

/-- The input starts with a text of the form `d{1,2}/d{1,2}/dddd,` separator
`dd:dd`. -/
def startsWithDateForm (sp : Char → Bool) (s : List Char) : Bool :=
  startsWithClasses (dateForm sp 2 2) s || startsWithClasses (dateForm sp 2 1) s ||
    startsWithClasses (dateForm sp 1 2) s || startsWithClasses (dateForm sp 1 1) s

/-- The input contains a substring of the form `d{1,2}/d{1,2}/dddd,` separator
`dd:dd`. -/
def containsDateForm (sp : Char → Bool) (s : List Char) : Bool :=
  s.tails.any (startsWithDateForm sp)

/-- The text is one digit or two digits. -/
def Digits12 (ds : List Char) : Prop :=
  (∃ a, ds = [a] ∧ isDigit a = true) ∨ (∃ a b, ds = [a, b] ∧ isDigit a = true ∧ isDigit b = true)

/-- The shape of the capture groups of every match: `d{1,2}/d{1,2}/dddd`
and `dd:dd`. -/
def ShapedGroups (g : List Char × List Char) : Prop :=
  ∃ ds ms y1 y2 y3 y4 h1 h2 m1 m2,
    g = (ds ++ '/' :: ms ++ ['/', y1, y2, y3, y4], [h1, h2, ':', m1, m2]) ∧
    Digits12 ds ∧ Digits12 ms ∧ isDigit y1 = true ∧ isDigit y2 = true ∧ isDigit y3 = true ∧
    isDigit y4 = true ∧ isDigit h1 = true ∧ isDigit h2 = true ∧ isDigit m1 = true ∧
    isDigit m2 = true

/-- The time with the given fields and zero seconds. -/
def Fields.toTime (f : Fields) : Time := ⟨f.year, f.month, f.day, f.hour, f.min, 0⟩

/-- The day element of a layout: `02` when fixed, `2` otherwise. -/
def dayChunk (isFixed : Bool) : Chunk := if isFixed then .stdZeroDay else .stdDay

/-- The month element of a layout: `01` when fixed, `1` otherwise. -/
def monthChunk (isFixed : Bool) : Chunk := if isFixed then .stdZeroMonth else .stdNumMonth

/-- The last five elements shared by the three layouts: `2006 15:04`. -/
def tailLayout : List Chunk := [.stdLongYear, .lit ' ', .stdHour, .lit ':', .stdZeroMinute]

/-! ## Engagement score (countTotalLikes, lines 183-214, and the article handler,
lines 124-140) -/

/-- Go `int` on a 64-bit platform: the result of an addition, wrapped to the
range of int64. -/
def wrapInt (x : Int) : Int := (x + 2 ^ 63) % 2 ^ 64 - 2 ^ 63

/-- The value fits Go `int` (int64); every decoded integer field does. -/
def InInt (x : Int) : Prop := -(2 ^ 63) ≤ x ∧ x < 2 ^ 63

instance (x : Int) : Decidable (InInt x) := by
  unfold InInt; infer_instance

/-- A Go `error` value, by its message. -/
abbrev Error := String

/-- The struct `BoxComment` (lines 35-43). -/
structure BoxComment where
  ArticleId : String
  ArticleType : String
  SiteId : String
  CategoryId : String
  Sign : String
  Limit : Int
  TabActive : String
deriving Repr

/-- A value decoded into `interface{}` by encoding/json.  The program never
looks inside one. -/
inductive JSONValue where
  | null
  | bool (b : Bool)
  | number (text : String)
  | string (s : String)
  | array (items : List JSONValue)
  | object (members : List (String × JSONValue))

/-- The anonymous struct of the field `Replys` (lines 65-68). -/
structure Replys where
  Total : Int
  Items : List JSONValue

/-- The anonymous struct of the elements of `Data.Items` (lines 52-75).  The
field `Type` is named `Typ`, the field `Rating` is the empty struct. -/
structure CommentItem where
  CommentId : String
  ParentId : String
  ArticleId : Int
  Content : String
  FullName : String
  CreationTime : Int
  Time : String
  Userlike : Int
  TR1 : Int
  TR2 : Int
  TR3 : Int
  TR4 : Int
  Replys : Replys
  Userid : Option Int
  Typ : Int
  LikeIsmember : Bool
  Rating : Unit
  IsPin : Int

/-- The anonymous struct of the field `Data` (lines 49-78). -/
structure CommentData where
  Total : Int
  Totalitem : Int
  Items : List CommentItem
  ItemsPin : List JSONValue
  Offset : Int

/-- The struct `Comment` (lines 45-80). -/
structure Comment where
  Error : Int
  ErrorDescription : String
  Iscomment : Int
  Data : CommentData
  Csrf : String

/-- What `client.Do` hands back when it reports no error: any status code,
any body. -/
structure Response where
  StatusCode : Int
  Body : String

/-- The calls of countTotalLikes into encoding/json and net/http.  A decoder
returns an error, or the pointer it was given: `none` is the nil pointer that
decoding the JSON literal `null` leaves, `some` a decoded struct.  The request
is identified by its query values. -/
structure Env where
  jsonUnmarshalBoxComment : String → Except Error (Option BoxComment)
  httpNewRequest : Except Error Unit
  clientDo : List (String × String) → Except Error Response
  jsonDecodeComment : String → Except Error (Option Comment)

/-- The call `query.Values(boxComment)` of go-querystring: one pair per field,
under its `url` tag; the nil pointer gives no pair. -/
def queryValues : Option BoxComment → List (String × String)
  | none => []
  | some b =>
    [("objectid", b.ArticleId), ("objecttype", b.ArticleType), ("siteid", b.SiteId),
      ("catetoryid", b.CategoryId), ("sign", b.Sign), ("limit", toString b.Limit),
      ("tab_active", b.TabActive)]

/-- How a Go call ends: it returns, or it panics. -/
inductive Outcome (α : Type) where
  | ret (a : α)
  | panic (msg : String)
deriving DecidableEq, Repr

/-- The loop of lines 208-211: `totalLikes += item.Userlike` over the top-level
items, in Go `int` arithmetic. -/
def sumUserlike (items : List CommentItem) : Int :=
  items.foldl (fun totalLikes item => wrapInt (totalLikes + item.Userlike)) 0

/-- The function countTotalLikes of main.go.  It returns the pair
`(int, error)`, `none` for the nil error; reading `comment.Data` through a nil
`comment` is the runtime panic of a nil pointer dereference. -/
def countTotalLikes (env : Env) (dataComponentInput : String) : Outcome (Int × Option Error) :=
  match env.jsonUnmarshalBoxComment dataComponentInput with
  | .error err => .ret (0, some err)
  | .ok boxComment =>
    let v := queryValues boxComment
    match env.httpNewRequest with
    | .error err => .ret (0, some err)
    | .ok _ =>
      match env.clientDo v with
      | .error err => .ret (0, some err)
      | .ok resp =>
        match env.jsonDecodeComment resp.Body with
        | .error err => .ret (0, some err)
        | .ok none => .panic "invalid memory address or nil pointer dereference"
        | .ok (some comment) => .ret (sumUserlike comment.Data.Items, none)

/-- What the article handler reads from the page: the request URL, the text of
the title element, the attribute `data-component-input` of `#box_comment_vne`
and the text of the date element. -/
structure ArticlePage where
  URL : String
  Title : String
  DataComponentInput : String
  Date : String

/-- Lines 126-138 of the handler once countTotalLikes has returned
`(totalLikes, err)`: the record that is sent. -/
def buildArticle (e : ArticlePage) (totalLikes : Int) (err : Option Error) : Article :=
  let article : Article := { URL := e.URL, Title := e.Title, Date := Time.zero, Likes := 0 }
  let article :=
    if err = none ∧ totalLikes > 0 then { article with Likes := totalLikes } else article
  { article with Date := parseDate e.Date }

/-- The handler `articleCollector.OnHTML("body", ...)` (lines 124-140): the
records it sends on `articleCh`, or the panic it ends in. -/
def articleHandler (env : Env) (e : ArticlePage) : Outcome (List Article) :=
  match countTotalLikes env e.DataComponentInput with
  | .panic msg => .panic msg
  | .ret (totalLikes, err) => .ret [buildArticle e totalLikes err]

/-! ## Engagement score: the vocabulary of the specification -/

/-- The sum of `userlike` over the top-level items, as a number. -/
def likesSum (items : List CommentItem) : Int := (items.map (fun item => item.Userlike)).sum

/-- The status is not 2xx. -/
def Non2xx (status : Int) : Prop := ¬ (200 ≤ status ∧ status < 300)

instance (status : Int) : Decidable (Non2xx status) := by
  unfold Non2xx; infer_instance

/-- The engagement lookup of the page fails at a step, in the words of the
specification: the configuration blob is malformed JSON, the request has a
network error, the comments API answers with a non-2xx status, or the response
body is invalid JSON. -/
def LookupFails (env : Env) (e : ArticlePage) : Prop :=
  (∃ err, env.jsonUnmarshalBoxComment e.DataComponentInput = .error err) ∨
  (∃ box, env.jsonUnmarshalBoxComment e.DataComponentInput = .ok box ∧
    env.httpNewRequest = .ok () ∧
    ((∃ err, env.clientDo (queryValues box) = .error err) ∨
      (∃ resp, env.clientDo (queryValues box) = .ok resp ∧
        (Non2xx resp.StatusCode ∨ ∃ err, env.jsonDecodeComment resp.Body = .error err))))

/-- The engagement lookup of the page ends in an error return of
countTotalLikes: the blob does not decode, the request cannot be built or sent,
or the body does not decode. -/
def LookupErrors (env : Env) (e : ArticlePage) : Prop :=
  (∃ err, env.jsonUnmarshalBoxComment e.DataComponentInput = .error err) ∨
  (∃ box, env.jsonUnmarshalBoxComment e.DataComponentInput = .ok box ∧
    ((∃ err, env.httpNewRequest = .error err) ∨
      (env.httpNewRequest = .ok () ∧
        ((∃ err, env.clientDo (queryValues box) = .error err) ∨
          (∃ resp, env.clientDo (queryValues box) = .ok resp ∧
            ∃ err, env.jsonDecodeComment resp.Body = .error err)))))

/-- The environment in which every answer of the comments API carries the status
`f status` in place of `status`, and nothing else differs. -/
def withStatus (env : Env) (f : Int → Int) : Env :=
  { env with
    clientDo := fun v =>
      match env.clientDo v with
      | .error err => .error err
      | .ok resp => .ok { resp with StatusCode := f resp.StatusCode } }

/-- A comment item with the given `userlike`, replies and nothing else. -/
def sampleItem (userlike : Int) (replies : List JSONValue) : CommentItem :=
  { CommentId := "", ParentId := "", ArticleId := 0, Content := "", FullName := "",
    CreationTime := 0, Time := "", Userlike := userlike, TR1 := 0, TR2 := 0, TR3 := 0, TR4 := 0,
    Replys := ⟨(replies.length : Int), replies⟩, Userid := none, Typ := 0, LikeIsmember := false,
    Rating := (), IsPin := 0 }

/-- A comment batch with the given top-level items and pinned items. -/
def sampleComment (items : List CommentItem) (pinned : List JSONValue) : Comment :=
  { Error := 0, ErrorDescription := "", Iscomment := 1,
    Data := { Total := items.length, Totalitem := items.length, Items := items,
              ItemsPin := pinned, Offset := 0 },
    Csrf := "" }

/-- A configuration blob as the site embeds it. -/
def sampleBox : BoxComment :=
  { ArticleId := "4600000", ArticleType := "1", SiteId := "1000000", CategoryId := "1001005",
    Sign := "abc", Limit := 25, TabActive := "most_like" }

/-- An environment in which the blob decodes and the comments API answers with
the given status and a body that decodes to `decoded`. -/
def sampleEnv (status : Int) (decoded : Except Error (Option Comment)) : Env :=
  { jsonUnmarshalBoxComment := fun _ => .ok (some sampleBox),
    httpNewRequest := .ok (),
    clientDo := fun _ => .ok ⟨status, "body"⟩,
    jsonDecodeComment := fun _ => decoded }

/-- An article page. -/
def samplePage : ArticlePage :=
  { URL := "https://vnexpress.net/a-4600000.html", Title := "a", DataComponentInput := "blob",
    Date := "15/3/2024, 09:30" }

/-- An environment in which the comments API answers 200 with the body `null`:
the blob decodes, and the decoder leaves the nil pointer for the literal
`null`, as encoding/json does, and rejects every other body. -/
def nullBodyEnv : Env :=
  { jsonUnmarshalBoxComment := fun _ => .ok (some sampleBox),
    httpNewRequest := .ok (),
    clientDo := fun _ => .ok ⟨200, "null"⟩,
    jsonDecodeComment := fun body =>
      if body = "null" then .ok none else .error "invalid character" }

/-- An environment in which the configuration blob is the literal `null` (the
decoder leaves the nil pointer) and the comments API answers 200 with one
comment of 4 likes. -/
def nullBlobEnv : Env :=
  { jsonUnmarshalBoxComment := fun blob =>
      if blob = "null" then .ok none else .error "invalid character",
    httpNewRequest := .ok (),
    clientDo := fun _ => .ok ⟨200, "body"⟩,
    jsonDecodeComment := fun _ => .ok (some (sampleComment [sampleItem 4 []] [])) }

/-! ## Ranking: lemmas -/

theorem likesLess_strictWeak : StrictWeakOrder likesLess := by
  refine ⟨?_, ?_, ?_⟩
  · intro a; simp [likesLess]
  · intro a b c h1 h2
    simp only [likesLess, gt_iff_lt, decide_eq_true_eq] at *
    omega
  · intro a b c h1 h2
    simp only [likesLess, gt_iff_lt, decide_eq_false_iff_not, not_lt] at *
    omega

theorem insertRev_perm {α : Type} (less : α → α → Bool) (x : α) (l : List α) :
    (insertRev less x l).Perm (x :: l) := by
  induction l with
  | nil => simp [insertRev]
  | cons p ps ih =>
    unfold insertRev
    split
    · exact (List.Perm.cons p ih).trans (List.Perm.swap x p ps)
    · exact List.Perm.refl _

theorem insertRev_pairwise {α : Type} (less : α → α → Bool) (hw : StrictWeakOrder less)
    (x : α) (l : List α) (hl : l.Pairwise (fun a b => less a b = false)) :
    (insertRev less x l).Pairwise (fun a b => less a b = false) := by
  induction l with
  | nil => simp [insertRev]
  | cons p ps ih =>
    have hp := List.pairwise_cons.mp hl
    unfold insertRev
    split
    · rename_i hlt
      refine List.pairwise_cons.mpr ⟨?_, ih hp.2⟩
      intro b hb
      rcases List.mem_cons.mp ((insertRev_perm less x ps).mem_iff.mp hb) with hb | hb
      · subst hb
        cases hpx : less p b with
        | false => rfl
        | true =>
          have hxx := hw.2.1 b p b hlt hpx
          rw [hw.1 b] at hxx
          exact absurd hxx (by simp)
      · exact hp.1 b hb
    · rename_i hge
      have hxp : less x p = false := by simpa using hge
      refine List.pairwise_cons.mpr ⟨?_, hl⟩
      intro b hb
      rcases List.mem_cons.mp hb with hb | hb
      · rw [hb]; exact hxp
      · exact hw.2.2 x p b hxp (hp.1 b hb)

theorem foldl_insertRev {α : Type} (less : α → α → Bool) (hw : StrictWeakOrder less)
    (ys : List α) : ∀ acc : List α, acc.Pairwise (fun a b => less a b = false) →
      (ys.foldl (fun acc x => insertRev less x acc) acc).Perm (ys.reverse ++ acc) ∧
        (ys.foldl (fun acc x => insertRev less x acc) acc).Pairwise
          (fun a b => less a b = false) := by
  induction ys with
  | nil => intro acc hacc; exact ⟨by simp, by simpa using hacc⟩
  | cons y ys ih =>
    intro acc hacc
    obtain ⟨hperm, hpw⟩ := ih (insertRev less y acc) (insertRev_pairwise less hw y acc hacc)
    refine ⟨?_, by simpa using hpw⟩
    simp only [List.foldl_cons, List.reverse_cons, List.append_assoc, List.singleton_append]
    exact hperm.trans (List.Perm.append_left _ (insertRev_perm less y acc))

theorem insertionSortLess_contract {α : Type} :
    SortSliceContract (insertionSortLess : (α → α → Bool) → List α → List α) := by
  intro less xs hw
  obtain ⟨hperm, hpw⟩ := foldl_insertRev less hw xs [] List.Pairwise.nil
  rw [List.append_nil] at hperm
  constructor
  · unfold insertionSortLess
    exact ((List.reverse_perm _).trans hperm).trans (List.reverse_perm xs)
  · unfold insertionSortLess
    exact List.pairwise_reverse.mpr hpw

/-! ## Ranking: the claims -/

theorem rankArticles_eq_take (sortSlice : (Article → Article → Bool) → List Article → List Article)
    (articles : List Article) :
    rankArticles sortSlice articles = (sortSlice likesLess articles).take 10 := by
  unfold rankArticles
  by_cases h : (sortSlice likesLess articles).length ≥ 10
  · simp [h]
  · have h2 : (sortSlice likesLess articles).length ≤ 10 := by omega
    simp only [h, if_false]
    rw [List.take_of_length_le h2, List.take_of_length_le (le_refl _)]

/-- Claim C1: for every collection of n article records, the ranking step (sort by Likes
descending, cut to 10) outputs the most-liked ones: the output has exactly min(10, n)
records, it is a sub-multiset of the collected records, and every collected record left
out of the output has Likes at most the Likes of every record in the output. -/
theorem rank_outputs_most_liked
    (sortSlice : (Article → Article → Bool) → List Article → List Article)
    (hsort : SortSliceContract sortSlice) (articles : List Article) :
    (rankArticles sortSlice articles).length = min 10 articles.length ∧
      ((rankArticles sortSlice articles : List Article) : Multiset Article) ≤
        (articles : Multiset Article) ∧
      Multiset.card ((articles : Multiset Article) -
          ((rankArticles sortSlice articles : List Article) : Multiset Article)) =
        articles.length - 10 ∧
      ∀ x ∈ (articles : Multiset Article) -
          ((rankArticles sortSlice articles : List Article) : Multiset Article),
        ∀ y ∈ rankArticles sortSlice articles, x.Likes ≤ y.Likes := by
  obtain ⟨hperm, hpw⟩ := hsort likesLess articles likesLess_strictWeak
  rw [rankArticles_eq_take]
  have hsplit : (articles : Multiset Article) =
      (((sortSlice likesLess articles).take 10 : List Article) : Multiset Article) +
        (((sortSlice likesLess articles).drop 10 : List Article) : Multiset Article) := by
    rw [Multiset.coe_add, List.take_append_drop]
    exact (Multiset.coe_eq_coe.mpr hperm).symm
  refine ⟨?_, ?_, ?_, ?_⟩
  · rw [List.length_take, hperm.length_eq]
  · rw [hsplit]; exact Multiset.le_add_right _ _
  · rw [hsplit, add_tsub_cancel_left, Multiset.coe_card, List.length_drop, hperm.length_eq]
  · intro x hx y hy
    rw [hsplit, add_tsub_cancel_left] at hx
    have hx2 : x ∈ (sortSlice likesLess articles).drop 10 := by simpa using hx
    rw [← List.take_append_drop 10 (sortSlice likesLess articles)] at hpw
    have := (List.pairwise_append.mp hpw).2.2 y hy x hx2
    simp only [likesLess, gt_iff_lt, decide_eq_false_iff_not, not_lt] at this
    exact this

/-- Witness of C1: the insertion sort meets the contract of sort.Slice; of the twelve sample
records the ranking keeps the ten with Likes 12 down to 3 and leaves out the two with
Likes 1 and 2, and the property holds of it. -/
theorem rank_outputs_most_liked_witness :
    SortSliceContract (insertionSortLess : (Article → Article → Bool) → _) ∧
    (rankArticles insertionSortLess twelveArticles).map (fun a => a.Likes) =
      [12, 11, 10, 9, 8, 7, 6, 5, 4, 3] ∧
    (twelveArticles.diff (rankArticles insertionSortLess twelveArticles)).map
      (fun a => a.Likes) = [1, 2] ∧
    ((rankArticles insertionSortLess twelveArticles).length = min 10 twelveArticles.length ∧
      ((rankArticles insertionSortLess twelveArticles : List Article) : Multiset Article) ≤
        (twelveArticles : Multiset Article) ∧
      Multiset.card ((twelveArticles : Multiset Article) -
          ((rankArticles insertionSortLess twelveArticles : List Article) :
            Multiset Article)) = twelveArticles.length - 10 ∧
      ∀ x ∈ (twelveArticles : Multiset Article) -
          ((rankArticles insertionSortLess twelveArticles : List Article) : Multiset Article),
        ∀ y ∈ rankArticles insertionSortLess twelveArticles, x.Likes ≤ y.Likes) :=
  ⟨insertionSortLess_contract, by decide, by decide,
    rank_outputs_most_liked insertionSortLess insertionSortLess_contract twelveArticles⟩

/-- Claim C2: the output list of main is sorted by Likes descending: for every
adjacent pair (a, b) of the output, a.Likes >= b.Likes. -/
theorem rank_sorted_descending
    (sortSlice : (Article → Article → Bool) → List Article → List Article)
    (hsort : SortSliceContract sortSlice) (articles : List Article) :
    (rankArticles sortSlice articles).Chain' (fun a b => a.Likes ≥ b.Likes) := by
  obtain ⟨_, hpw⟩ := hsort likesLess articles likesLess_strictWeak
  rw [rankArticles_eq_take]
  apply List.Pairwise.chain'
  apply List.Pairwise.sublist (List.take_sublist 10 _)
  refine hpw.imp ?_
  intro a b h
  simp only [likesLess, gt_iff_lt, decide_eq_false_iff_not, not_lt] at h
  exact h

/-- Witness of C2 on the three sample records. -/
theorem rank_sorted_descending_witness :
    SortSliceContract (insertionSortLess : (Article → Article → Bool) → _) ∧
    (rankArticles insertionSortLess sampleArticles).Chain' (fun a b => a.Likes ≥ b.Likes) :=
  ⟨insertionSortLess_contract,
    rank_sorted_descending insertionSortLess insertionSortLess_contract sampleArticles⟩

/-- Claim C3: for every list of n collected records (n = 0 included) the output has
exactly min(10, n) records; when nothing was collected the output is the empty list. -/
theorem rank_length
    (sortSlice : (Article → Article → Bool) → List Article → List Article)
    (hsort : SortSliceContract sortSlice) (articles : List Article) :
    (rankArticles sortSlice articles).length = min 10 articles.length ∧
      (articles = [] → rankArticles sortSlice articles = []) := by
  obtain ⟨hperm, _⟩ := hsort likesLess articles likesLess_strictWeak
  have hlen : (rankArticles sortSlice articles).length = min 10 articles.length := by
    rw [rankArticles_eq_take, List.length_take, hperm.length_eq]
  refine ⟨hlen, ?_⟩
  intro h
  apply List.eq_nil_of_length_eq_zero
  rw [hlen, h]
  rfl

/-- Witness of C3: twelve records give ten, no record gives none. -/
theorem rank_length_witness :
    SortSliceContract (insertionSortLess : (Article → Article → Bool) → _) ∧
    (rankArticles insertionSortLess (List.replicate 12 (Article.mk "u" "t" Time.zero 1))).length
      = 10 ∧
    rankArticles insertionSortLess [] = [] :=
  ⟨insertionSortLess_contract,
    (rank_length insertionSortLess insertionSortLess_contract
      (List.replicate 12 (Article.mk "u" "t" Time.zero 1))).1,
    (rank_length insertionSortLess insertionSortLess_contract []).2 rfl⟩

/-! ## Date parsing: the pattern and the date form -/

theorem findSome_isSome {α β : Type} (f : α → Option β) (l : List α) :
    (l.findSome? f).isSome = l.any (fun x => (f x).isSome) := by
  induction l with
  | nil => rfl
  | cons x xs ih =>
    simp only [List.findSome?, List.any_cons]
    cases h : f x with
    | none => simpa using ih
    | some b => simp

theorem matchTail_isSome (d m r : List Char) :
    (matchTail d m r).isSome = startsWithClasses (tailForm isSpace) r := by
  rcases r with _ | ⟨a1, _ | ⟨a2, _ | ⟨a3, _ | ⟨a4, _ | ⟨a5, _ | ⟨a6, _ | ⟨a7, _ | ⟨a8,
    _ | ⟨a9, _ | ⟨a10, _ | ⟨a11, _ | ⟨a12, r⟩⟩⟩⟩⟩⟩⟩⟩⟩⟩⟩⟩ <;>
    simp [matchTail, startsWithClasses, tailForm]
  split <;> simp_all

theorem matchMonth_isSome (d r : List Char) :
    (matchMonth d r).isSome =
      (startsWithClasses ((fun c => c == '/') :: isDigit :: isDigit :: tailForm isSpace) r ||
        startsWithClasses ((fun c => c == '/') :: isDigit :: tailForm isSpace) r) := by
  rcases r with _ | ⟨c, _ | ⟨c1, _ | ⟨c2, r⟩⟩⟩
  · simp [matchMonth, startsWithClasses]
  · simp [matchMonth, startsWithClasses, takeDigits12, tailForm]
  · by_cases hc : (c == '/') = true <;> by_cases h1 : isDigit c1 = true <;>
      simp [matchMonth, startsWithClasses, takeDigits12, hc, h1, findSome_isSome, matchTail_isSome]
  · by_cases hc : (c == '/') = true <;> by_cases h1 : isDigit c1 = true <;>
      by_cases h2 : isDigit c2 = true <;>
      simp [matchMonth, startsWithClasses, takeDigits12, hc, h1, h2, findSome_isSome,
        matchTail_isSome]

theorem matchAt_isSome (s : List Char) :
    (matchAt s).isSome = startsWithDateForm isSpace s := by
  have hform : ∀ dl ml, dateForm isSpace dl ml =
      List.replicate dl isDigit ++
        (fun c => c == '/') :: List.replicate ml isDigit ++ tailForm isSpace := fun _ _ => rfl
  rcases s with _ | ⟨c1, _ | ⟨c2, r⟩⟩
  · simp [matchAt, takeDigits12, startsWithDateForm, hform, startsWithClasses, List.replicate]
  · by_cases h1 : isDigit c1 = true <;>
      simp [matchAt, takeDigits12, startsWithDateForm, hform, startsWithClasses, List.replicate, h1,
        matchMonth]
  · by_cases h1 : isDigit c1 = true <;> by_cases h2 : isDigit c2 = true <;>
      simp [matchAt, takeDigits12, startsWithDateForm, hform, startsWithClasses, List.replicate,
        h1, h2, findSome_isSome, matchMonth_isSome]
    simp only [Bool.or_assoc]

theorem findStringSubmatch_isSome (s : List Char) :
    (findStringSubmatch s).isSome = containsDateForm isSpace s := by
  induction s with
  | nil => simp [findStringSubmatch, containsDateForm, matchAt_isSome]
  | cons c cs ih =>
    unfold findStringSubmatch
    unfold containsDateForm at *
    rw [List.tails, List.any_cons, ← ih, ← matchAt_isSome]
    cases matchAt (c :: cs) <;> simp

theorem findSome_eq_some {α β : Type} (f : α → Option β) (l : List α) (b : β)
    (h : l.findSome? f = some b) : ∃ a, a ∈ l ∧ f a = some b := by
  induction l with
  | nil => simp at h
  | cons x xs ih =>
    simp only [List.findSome?] at h
    cases hx : f x with
    | none =>
      rw [hx] at h
      obtain ⟨a, ha, hfa⟩ := ih h
      exact ⟨a, List.mem_cons_of_mem _ ha, hfa⟩
    | some c =>
      rw [hx] at h
      exact ⟨x, List.mem_cons_self _ _, by rw [hx]; exact h⟩

theorem takeDigits12_mem (s : List Char) (dr : List Char × List Char)
    (h : dr ∈ takeDigits12 s) : Digits12 dr.1 := by
  rcases s with _ | ⟨c1, _ | ⟨c2, r⟩⟩
  · simp [takeDigits12] at h
  · by_cases h1 : isDigit c1 = true
    · simp [takeDigits12, h1] at h
      subst h
      exact Or.inl ⟨c1, rfl, h1⟩
    · simp [takeDigits12, h1] at h
  · by_cases h1 : isDigit c1 = true
    · by_cases h2 : isDigit c2 = true
      · simp [takeDigits12, h1, h2] at h
        rcases h with h | h
        · subst h; exact Or.inr ⟨c1, c2, rfl, h1, h2⟩
        · subst h; exact Or.inl ⟨c1, rfl, h1⟩
      · simp [takeDigits12, h1, h2] at h
        subst h; exact Or.inl ⟨c1, rfl, h1⟩
    · simp [takeDigits12, h1] at h

theorem matchTail_some (d m r : List Char) (g : List Char × List Char)
    (hd : Digits12 d) (hm : Digits12 m) (h : matchTail d m r = some g) : ShapedGroups g := by
  rcases r with _ | ⟨a1, _ | ⟨a2, _ | ⟨a3, _ | ⟨a4, _ | ⟨a5, _ | ⟨a6, _ | ⟨a7, _ | ⟨a8,
    _ | ⟨a9, _ | ⟨a10, _ | ⟨a11, _ | ⟨a12, r⟩⟩⟩⟩⟩⟩⟩⟩⟩⟩⟩⟩ <;>
    try (simp [matchTail] at h; done)
  simp only [matchTail] at h
  split at h
  · rename_i hc
    simp only [Bool.and_eq_true] at hc
    obtain ⟨⟨⟨⟨⟨⟨⟨⟨⟨⟨⟨_, hy1⟩, hy2⟩, hy3⟩, hy4⟩, _⟩, _⟩, hh1⟩, hh2⟩, _⟩, hm1⟩, hm2⟩ := hc
    refine ⟨d, m, a2, a3, a4, a5, a8, a9, a11, a12, ?_, hd, hm, hy1, hy2, hy3, hy4, hh1, hh2,
      hm1, hm2⟩
    simpa using h.symm
  · exact absurd h (by simp)

theorem matchAt_some (s : List Char) (g : List Char × List Char) (h : matchAt s = some g) :
    ShapedGroups g := by
  unfold matchAt at h
  obtain ⟨dr, hdr, h2⟩ := findSome_eq_some _ _ _ h
  have hd := takeDigits12_mem s dr hdr
  rcases hr : dr.2 with _ | ⟨c, r⟩
  · rw [hr] at h2; simp [matchMonth] at h2
  · rw [hr] at h2
    simp only [matchMonth] at h2
    split at h2
    · obtain ⟨mr, hmr, h3⟩ := findSome_eq_some _ _ _ h2
      exact matchTail_some dr.1 mr.1 mr.2 g hd (takeDigits12_mem r mr hmr) h3
    · exact absurd h2 (by simp)

theorem findStringSubmatch_some (s : List Char) (g : List Char × List Char)
    (h : findStringSubmatch s = some g) : ShapedGroups g := by
  induction s with
  | nil => exact matchAt_some [] g (by simpa [findStringSubmatch] using h)
  | cons c cs ih =>
    unfold findStringSubmatch at h
    cases hm : matchAt (c :: cs) with
    | none => rw [hm] at h; exact ih h
    | some g2 =>
      rw [hm] at h
      simp only [Option.some.injEq] at h
      exact matchAt_some (c :: cs) g (by rw [hm, h])

/-! ## Date parsing: the layouts -/

theorem isDigit_slash : isDigit '/' = false := by decide

theorem isDigit_colon : isDigit ':' = false := by decide

theorem isDigit_blank : isDigit ' ' = false := by decide

theorem isDigit_ne {c x : Char} (hc : isDigit c = true) (hx : isDigit x = false) : c ≠ x := by
  intro h
  rw [h, hx] at hc
  exact absurd hc (by simp)

theorem getnum_digits (ds r : List Char) (x : Char) (isFixed : Bool) (hds : Digits12 ds)
    (hx : isDigit x = false) :
    getnum (ds ++ x :: r) isFixed =
      if isFixed = true ∧ ds.length = 1 then none else some (decimal ds, x :: r) := by
  rcases hds with ⟨a, rfl, ha⟩ | ⟨a, b, rfl, ha, hb⟩ <;> cases isFixed <;>
    simp [getnum, decimal, ha, hx, *]

theorem split_digits (ds r : List Char) (x : Char) (hds : Digits12 ds)
    (hx : isDigit x = false) :
    (ds ++ x :: r).takeWhile (fun c => c != x) = ds ∧
      (ds ++ x :: r).dropWhile (fun c => c != x) = x :: r := by
  rcases hds with ⟨a, rfl, ha⟩ | ⟨a, b, rfl, ha, hb⟩
  · have na : (a != x) = true := by simpa using isDigit_ne ha hx
    simp [List.takeWhile, List.dropWhile, na]
  · have na : (a != x) = true := by simpa using isDigit_ne ha hx
    have nb : (b != x) = true := by simpa using isDigit_ne hb hx
    simp [List.takeWhile, List.dropWhile, na, nb]

theorem parse_tail (f : Fields) (y1 y2 y3 y4 h1 h2 m1 m2 : Char)
    (hy1 : isDigit y1 = true) (hy2 : isDigit y2 = true) (hy3 : isDigit y3 = true)
    (hy4 : isDigit y4 = true) (hh1 : isDigit h1 = true) (hh2 : isDigit h2 = true)
    (hm1 : isDigit m1 = true) (hm2 : isDigit m2 = true) :
    parseChunks [.stdLongYear, .lit ' ', .stdHour, .lit ':', .stdZeroMinute]
        [y1, y2, y3, y4, ' ', h1, h2, ':', m1, m2] f =
      if 24 ≤ decimal [h1, h2] ∨ 60 ≤ decimal [m1, m2] then none
      else some ⟨decimal [y1, y2, y3, y4], f.month, f.day, decimal [h1, h2], decimal [m1, m2]⟩ := by
  have n1 := isDigit_ne hh1 isDigit_blank
  by_cases hhr : 24 ≤ digitVal h1 * 10 + digitVal h2 <;>
  by_cases hmin : 60 ≤ digitVal m1 * 10 + digitVal m2 <;>
  simp [parseChunks, parseChunk, getnum, decimal, *]

theorem parse_head (fd fm : Bool) (rest : List Chunk) (ds ms T : List Char) (f : Fields)
    (hds : Digits12 ds) (hms : Digits12 ms) :
    parseChunks (dayChunk fd :: .lit '/' :: monthChunk fm :: .lit '/' :: rest)
        (ds ++ '/' :: (ms ++ '/' :: T)) f =
      if (fd = true ∧ ds.length = 1) ∨ (fm = true ∧ ms.length = 1) ∨ decimal ms = 0 ∨
          12 < decimal ms then none
      else parseChunks rest T { f with day := decimal ds, month := decimal ms } := by
  by_cases h1 : fd = true ∧ ds.length = 1 <;> by_cases h2 : fm = true ∧ ms.length = 1 <;>
  by_cases h3 : decimal ms = 0 <;> by_cases h4 : 12 < decimal ms <;>
  cases fd <;> cases fm <;>
  simp [parseChunks, parseChunk, dayChunk, monthChunk, getnum_digits _ _ _ _ hds isDigit_slash,
    h1, h2, h3, h4] <;>
  simp_all [getnum_digits _ _ _ _ hms isDigit_slash] <;>
  simp [Nat.not_lt.mpr h4]

theorem matchedFields_shaped (ds ms : List Char) (y1 y2 y3 y4 h1 h2 m1 m2 : Char)
    (hds : Digits12 ds) (hms : Digits12 ms) (hh1 : isDigit h1 = true)
    (hh2 : isDigit h2 = true) :
    matchedFields (ds ++ '/' :: ms ++ ['/', y1, y2, y3, y4], [h1, h2, ':', m1, m2]) =
      ⟨decimal [y1, y2, y3, y4], decimal ms, decimal ds, decimal [h1, h2], decimal [m1, m2]⟩ := by
  have e1 : ds ++ '/' :: ms ++ ['/', y1, y2, y3, y4] =
      ds ++ '/' :: (ms ++ '/' :: [y1, y2, y3, y4]) := by simp
  have s1 := split_digits ds (ms ++ '/' :: [y1, y2, y3, y4]) '/' hds isDigit_slash
  have s2 := split_digits ms [y1, y2, y3, y4] '/' hms isDigit_slash
  have s3 := split_digits [h1, h2] [m1, m2] ':' (Or.inr ⟨h1, h2, rfl, hh1, hh2⟩) isDigit_colon
  simp only [List.cons_append, List.nil_append] at s3
  simp only [matchedFields, e1, s1.1, s1.2, s2.1, s2.2, s3.1, s3.2, List.drop_succ_cons,
    List.drop_zero]

theorem timeParse_shaped (fd fm : Bool) (g : List Char × List Char) (hg : ShapedGroups g) :
    timeParse (dayChunk fd :: .lit '/' :: monthChunk fm :: .lit '/' :: tailLayout)
        (g.1 ++ ' ' :: g.2) = none ∨
    timeParse (dayChunk fd :: .lit '/' :: monthChunk fm :: .lit '/' :: tailLayout)
        (g.1 ++ ' ' :: g.2) = some (matchedFields g).toTime ∧ RealDateTime (matchedFields g) := by
  obtain ⟨ds, ms, y1, y2, y3, y4, h1, h2, m1, m2, rfl, hds, hms, hy1, hy2, hy3, hy4, hh1, hh2,
    hm1, hm2⟩ := hg
  have e1 : (ds ++ '/' :: ms ++ ['/', y1, y2, y3, y4], [h1, h2, ':', m1, m2]).1 ++
      ' ' :: (ds ++ '/' :: ms ++ ['/', y1, y2, y3, y4], [h1, h2, ':', m1, m2]).2 =
      ds ++ '/' :: (ms ++ '/' :: [y1, y2, y3, y4, ' ', h1, h2, ':', m1, m2]) := by simp
  rw [e1, matchedFields_shaped ds ms y1 y2 y3 y4 h1 h2 m1 m2 hds hms hh1 hh2]
  unfold timeParse
  rw [parse_head fd fm tailLayout ds ms _ _ hds hms]
  by_cases hbad : (fd = true ∧ ds.length = 1) ∨ (fm = true ∧ ms.length = 1) ∨ decimal ms = 0 ∨
      12 < decimal ms
  · rw [if_pos hbad]; exact Or.inl rfl
  · rw [if_neg hbad]
    unfold tailLayout
    rw [parse_tail _ y1 y2 y3 y4 h1 h2 m1 m2 hy1 hy2 hy3 hy4 hh1 hh2 hm1 hm2]
    by_cases htime : 24 ≤ decimal [h1, h2] ∨ 60 ≤ decimal [m1, m2]
    · rw [if_pos htime]; exact Or.inl rfl
    · rw [if_neg htime]
      by_cases hday : decimal ds < 1 ∨ decimal ds > daysIn (decimal ms) (decimal [y1, y2, y3, y4])
      · left; simp only [hday, if_true]
      · right
        simp only [hday, if_false, Fields.toTime, RealDateTime, true_and]
        omega

theorem timeParse_layout3 (g : List Char × List Char) (hg : ShapedGroups g)
    (hreal : RealDateTime (matchedFields g)) :
    timeParse layout3 (g.1 ++ ' ' :: g.2) = some (matchedFields g).toTime := by
  obtain ⟨ds, ms, y1, y2, y3, y4, h1, h2, m1, m2, rfl, hds, hms, hy1, hy2, hy3, hy4, hh1, hh2,
    hm1, hm2⟩ := hg
  have e1 : (ds ++ '/' :: ms ++ ['/', y1, y2, y3, y4], [h1, h2, ':', m1, m2]).1 ++
      ' ' :: (ds ++ '/' :: ms ++ ['/', y1, y2, y3, y4], [h1, h2, ':', m1, m2]).2 =
      ds ++ '/' :: (ms ++ '/' :: [y1, y2, y3, y4, ' ', h1, h2, ':', m1, m2]) := by simp
  rw [matchedFields_shaped ds ms y1 y2 y3 y4 h1 h2 m1 m2 hds hms hh1 hh2] at hreal ⊢
  rw [e1]
  unfold timeParse
  have hl : layout3 = dayChunk false :: .lit '/' :: monthChunk false :: .lit '/' :: tailLayout :=
    rfl
  simp only [RealDateTime] at hreal
  rw [hl, parse_head false false tailLayout ds ms _ _ hds hms, if_neg (by simp; omega)]
  unfold tailLayout
  rw [parse_tail _ y1 y2 y3 y4 h1 h2 m1 m2 hy1 hy2 hy3 hy4 hh1 hh2 hm1 hm2,
    if_neg (by omega)]
  simp only [Fields.toTime]
  rw [if_neg (by omega)]

theorem layouts_shaped (g : List Char × List Char) (hg : ShapedGroups g) :
    layouts.findSome? (fun layout => timeParse layout (g.1 ++ ' ' :: g.2)) =
      if RealDateTime (matchedFields g) then some (matchedFields g).toTime else none := by
  have h1 := timeParse_shaped true true g hg
  have h2 := timeParse_shaped true false g hg
  have h3 := timeParse_shaped false false g hg
  have e1 : layout1 = dayChunk true :: .lit '/' :: monthChunk true :: .lit '/' :: tailLayout :=
    rfl
  have e2 : layout2 = dayChunk true :: .lit '/' :: monthChunk false :: .lit '/' :: tailLayout :=
    rfl
  have e3 : layout3 = dayChunk false :: .lit '/' :: monthChunk false :: .lit '/' :: tailLayout :=
    rfl
  rw [← e1] at h1
  rw [← e2] at h2
  rw [← e3] at h3
  by_cases hreal : RealDateTime (matchedFields g)
  · have h4 := timeParse_layout3 g hg hreal
    rw [if_pos hreal]
    simp only [layouts, List.findSome?]
    rcases h1 with h1 | h1
    · rw [h1]
      rcases h2 with h2 | h2
      · rw [h2, h4]
      · rw [h2.1]
    · rw [h1.1]
  · rw [if_neg hreal]
    simp only [layouts, List.findSome?]
    rcases h1 with h1 | h1
    · rw [h1]
      rcases h2 with h2 | h2
      · rw [h2]
        rcases h3 with h3 | h3
        · rw [h3]
        · exact absurd h3.2 hreal
      · exact absurd h2.2 hreal
    · exact absurd h1.2 hreal

theorem parseDateChars_eq (s : List Char) :
    parseDateChars s =
      match findStringSubmatch s with
      | some g => if RealDateTime (matchedFields g) then (matchedFields g).toTime else Time.zero
      | none => Time.zero := by
  unfold parseDateChars
  cases h : findStringSubmatch s with
  | none => rfl
  | some g =>
    obtain ⟨g1, g2⟩ := g
    have := layouts_shaped (g1, g2) (findStringSubmatch_some s (g1, g2) h)
    simp only at this ⊢
    rw [this]
    split_ifs <;> rfl

/-! ## Date parsing: the claims -/

theorem findStringSubmatch_of_matchAt (s : List Char) (g : List Char × List Char)
    (h : matchAt s = some g) : findStringSubmatch s = some g := by
  cases s with
  | nil => simpa [findStringSubmatch] using h
  | cons c cs => simp [findStringSubmatch, h]

theorem matchAt_shaped (ds ms post : List Char) (y1 y2 y3 y4 w h1 h2 m1 m2 : Char)
    (hds : Digits12 ds) (hms : Digits12 ms)
    (hy1 : isDigit y1 = true) (hy2 : isDigit y2 = true) (hy3 : isDigit y3 = true)
    (hy4 : isDigit y4 = true) (hw : isSpace w = true) (hh1 : isDigit h1 = true)
    (hh2 : isDigit h2 = true) (hm1 : isDigit m1 = true) (hm2 : isDigit m2 = true) :
    matchAt (ds ++ '/' :: (ms ++ '/' :: y1 :: y2 :: y3 :: y4 :: ',' :: w :: h1 :: h2 :: ':' ::
        m1 :: m2 :: post)) =
      some (ds ++ '/' :: ms ++ ['/', y1, y2, y3, y4], [h1, h2, ':', m1, m2]) := by
  rcases hds with ⟨a, rfl, ha⟩ | ⟨a, b, rfl, ha, hb⟩ <;>
    rcases hms with ⟨c, rfl, hc⟩ | ⟨c, d, rfl, hc, hd⟩ <;>
    simp [matchAt, takeDigits12, matchMonth, matchTail, isDigit_slash, List.findSome?, *]

theorem isDigit_digitChar (k : Nat) (hk : k < 10) : isDigit (digitChar k) = true := by
  interval_cases k <;> decide

theorem digitVal_digitChar (k : Nat) (hk : k < 10) : digitVal (digitChar k) = k := by
  interval_cases k <;> decide

theorem written_digits (cs : List Char) (n : Nat) (h : WrittenWith1Or2Digits cs n) :
    Digits12 cs ∧ decimal cs = n := by
  rcases h with ⟨hn, rfl⟩ | ⟨hn, rfl⟩
  · exact ⟨Or.inl ⟨_, rfl, isDigit_digitChar n hn⟩, by simp [decimal, digitVal_digitChar n hn]⟩
  · have h1 : n / 10 < 10 := by omega
    have h2 : n % 10 < 10 := by omega
    refine ⟨Or.inr ⟨_, _, rfl, isDigit_digitChar _ h1, isDigit_digitChar _ h2⟩, ?_⟩
    simp only [decimal, twoDigits, List.foldl_cons, List.foldl_nil, digitVal_digitChar _ h1,
      digitVal_digitChar _ h2]
    omega

theorem decimal_twoDigits (n : Nat) (hn : n < 100) : decimal (twoDigits n) = n :=
  (written_digits _ n (Or.inr ⟨hn, rfl⟩)).2

theorem decimal_fourDigits (n : Nat) (hn : n < 10000) :
    decimal [digitChar (n / 1000), digitChar (n / 100 % 10), digitChar (n / 10 % 10),
      digitChar (n % 10)] = n := by
  have h1 : n / 1000 < 10 := by omega
  have h2 : n / 100 % 10 < 10 := by omega
  have h3 : n / 10 % 10 < 10 := by omega
  have h4 : n % 10 < 10 := by omega
  simp only [decimal, List.foldl_cons, List.foldl_nil, digitVal_digitChar _ h1,
    digitVal_digitChar _ h2, digitVal_digitChar _ h3, digitVal_digitChar _ h4]
  omega

/-- Claim C8, as amended: for every calendar-valid day d and month m, four-digit year y,
hour hh in 00..23 and minute mm in 00..59, the day and the month each written with one
or two digits, parseDate of the text d/m/y, hh:mm is the time y-m-d hh:mm:00 (UTC); that
time is the zero time only for 1/1/0001, 00:00. -/
theorem parseDate_valid (d m y hh mi : Nat) (ds ms : List Char)
    (hy : y < 10000) (hreal : RealDateTime ⟨y, m, d, hh, mi⟩)
    (hds : WrittenWith1Or2Digits ds d) (hms : WrittenWith1Or2Digits ms m) :
    parseDate (dateText ds ms y hh mi) = ⟨y, m, d, hh, mi, 0⟩ ∧
      (parseDate (dateText ds ms y hh mi) = Time.zero ↔
        y = 1 ∧ m = 1 ∧ d = 1 ∧ hh = 0 ∧ mi = 0) := by
  have hval : parseDate (dateText ds ms y hh mi) = ⟨y, m, d, hh, mi, 0⟩ := by
    obtain ⟨hD, hdv⟩ := written_digits ds d hds
    obtain ⟨hM, hmv⟩ := written_digits ms m hms
    have hhh : hh < 24 := hreal.2.2.2.2.1
    have hmm : mi < 60 := hreal.2.2.2.2.2
    have e : (dateText ds ms y hh mi).toList =
        ds ++ '/' :: (ms ++ '/' :: digitChar (y / 1000) :: digitChar (y / 100 % 10) ::
          digitChar (y / 10 % 10) :: digitChar (y % 10) :: ',' :: ' ' :: digitChar (hh / 10) ::
          digitChar (hh % 10) :: ':' :: digitChar (mi / 10) :: digitChar (mi % 10) :: []) := by
      simp [dateText, fourDigits, twoDigits]
    have hmatch := matchAt_shaped ds ms [] _ _ _ _ ' ' _ _ _ _ hD hM
      (isDigit_digitChar (y / 1000) (by omega)) (isDigit_digitChar (y / 100 % 10) (by omega))
      (isDigit_digitChar (y / 10 % 10) (by omega)) (isDigit_digitChar (y % 10) (by omega))
      (by decide) (isDigit_digitChar (hh / 10) (by omega))
      (isDigit_digitChar (hh % 10) (by omega)) (isDigit_digitChar (mi / 10) (by omega))
      (isDigit_digitChar (mi % 10) (by omega))
    have hfields := matchedFields_shaped ds ms (digitChar (y / 1000)) (digitChar (y / 100 % 10))
      (digitChar (y / 10 % 10)) (digitChar (y % 10)) (digitChar (hh / 10)) (digitChar (hh % 10))
      (digitChar (mi / 10)) (digitChar (mi % 10)) hD hM
      (isDigit_digitChar (hh / 10) (by omega)) (isDigit_digitChar (hh % 10) (by omega))
    rw [decimal_fourDigits y hy, hdv, hmv] at hfields
    have h2 := decimal_twoDigits hh (by omega)
    have h3 := decimal_twoDigits mi (by omega)
    unfold twoDigits at h2 h3
    rw [h2, h3] at hfields
    unfold parseDate
    rw [parseDateChars_eq, e, findStringSubmatch_of_matchAt _ _ hmatch]
    simp only [hfields, hreal, if_true, Fields.toTime]
  refine ⟨hval, ?_⟩
  rw [hval]
  simp only [Time.zero, Time.mk.injEq, and_true]
  omega

/-- Witness of C8: the example of the specification, 15/3/2024, 09:30. -/
theorem parseDate_valid_witness :
    parseDate "15/3/2024, 09:30" = ⟨2024, 3, 15, 9, 30, 0⟩ :=
  (parseDate_valid 15 3 2024 9 30 "15".toList "3".toList (by decide) (by decide)
    (Or.inr ⟨by decide, by decide⟩) (Or.inl ⟨by decide, by decide⟩)).1

/-- Counterexample to C8 as stated: day 1, month 1, year 0001, 00:00 is a calendar-valid
date and time written in the form of the claim, and parseDate returns the zero time
for it. -/
theorem parseDate_year_one_is_zero :
    dateText "1".toList "1".toList 1 0 0 = "1/1/0001, 00:00" ∧
      WrittenWith1Or2Digits "1".toList 1 ∧ RealDateTime ⟨1, 1, 1, 0, 0⟩ ∧
      parseDate "1/1/0001, 00:00" = Time.zero :=
  ⟨by decide, Or.inl ⟨by decide, by decide⟩, by decide, by decide⟩

/-- Claim C9, as amended: parseDate returns the zero time for every string that contains
no substring of the form d{1,2}/d{1,2}/dddd, then a comma, then one whitespace
character (space, tab, newline, form feed or carriage return), then dd:dd; and for
every string whose matched fields are not a real calendar date and time.  Being a total
function, parseDate never fails. -/
theorem parseDate_zero (s : String) :
    (containsDateForm isSpace s.toList = false → parseDate s = Time.zero) ∧
      (∀ g, findStringSubmatch s.toList = some g → ¬ RealDateTime (matchedFields g) →
        parseDate s = Time.zero) := by
  constructor
  · intro h
    have h2 := findStringSubmatch_isSome s.toList
    rw [h] at h2
    unfold parseDate
    rw [parseDateChars_eq]
    cases hf : findStringSubmatch s.toList with
    | none => rfl
    | some g => rw [hf] at h2; exact absurd h2 (by simp)
  · intro g hg hreal
    unfold parseDate
    rw [parseDateChars_eq, hg]
    simp only [hreal, if_false]

/-- Witness of C9: the strings named by the claim. -/
theorem parseDate_zero_witness :
    parseDate "not a date" = Time.zero ∧ parseDate "" = Time.zero ∧
      parseDate "31/2/2024, 09:30" = Time.zero ∧ parseDate "15/3/2024, 25:61" = Time.zero :=
  ⟨(parseDate_zero "not a date").1 (by decide), (parseDate_zero "").1 (by decide),
    (parseDate_zero "31/2/2024, 09:30").2 ("31/2/2024".toList, "09:30".toList) (by decide)
      (by decide),
    (parseDate_zero "15/3/2024, 25:61").2 ("15/3/2024".toList, "25:61".toList) (by decide)
      (by decide)⟩

/-- Counterexample to C9 as stated: with a tab after the comma the string has no
substring of the form d{1,2}/d{1,2}/dddd, dd:dd (comma, then a space), yet the pattern of
parseDate matches it and the result is 2024-03-15 09:30, not the zero time. -/
theorem parseDate_tab_separator :
    containsDateForm (fun c => c == ' ') "15/3/2024,\t09:30".toList = false ∧
      parseDate "15/3/2024,\t09:30" = ⟨2024, 3, 15, 9, 30, 0⟩ ∧
      parseDate "15/3/2024,\t09:30" ≠ Time.zero :=
  ⟨by decide, by decide, by decide⟩

/-! ## Engagement score: lemmas and claims -/

theorem wrapInt_add (a b : Int) : wrapInt (wrapInt a + b) = wrapInt (a + b) := by
  unfold wrapInt
  omega

theorem wrapInt_of_inInt (x : Int) (h : InInt x) : wrapInt x = x := by
  unfold InInt at h
  unfold wrapInt
  omega

theorem foldl_userlike (items : List CommentItem) : ∀ acc : Int,
    items.foldl (fun totalLikes item => wrapInt (totalLikes + item.Userlike)) (wrapInt acc) =
      wrapInt (acc + likesSum items) := by
  induction items with
  | nil => intro acc; simp [likesSum]
  | cons item rest ih =>
    intro acc
    simp only [List.foldl_cons, likesSum, List.map_cons, List.sum_cons]
    rw [wrapInt_add, ih (acc + item.Userlike)]
    simp only [likesSum, add_assoc]

theorem sumUserlike_eq (items : List CommentItem) :
    sumUserlike items = wrapInt (likesSum items) := by
  have h := foldl_userlike items 0
  have h0 : wrapInt 0 = 0 := by decide
  rw [h0, zero_add] at h
  exact h

/-- The sum is taken in Go int arithmetic: two comments of 2^62 likes each give -2^63. -/
theorem sumUserlike_wraps :
    sumUserlike [sampleItem (2 ^ 62) [], sampleItem (2 ^ 62) []] = -(2 ^ 63) := by decide

theorem countTotalLikes_decoded (env : Env) (blob : String) (box : Option BoxComment)
    (resp : Response) (comment : Comment)
    (hbox : env.jsonUnmarshalBoxComment blob = .ok box)
    (hreq : env.httpNewRequest = .ok ())
    (hdo : env.clientDo (queryValues box) = .ok resp)
    (hdec : env.jsonDecodeComment resp.Body = .ok (some comment)) :
    countTotalLikes env blob = .ret (wrapInt (likesSum comment.Data.Items), none) := by
  unfold countTotalLikes
  simp only [hbox, hreq, hdo, hdec, sumUserlike_eq]

/-- Claim C4, as amended: for every comment batch decoded to a Comment, countTotalLikes
returns the sum of userlike over the top-level items of data.items, in Go int arithmetic
(the exact sum whenever it fits the int range); the handler stores that value in
Article.Likes when it is positive and 0 otherwise; and the nested replys and items_pin
do not change the score: batches with the same top-level userlike values score alike. -/
theorem likes_is_top_level_sum (env : Env) (e : ArticlePage) (box : Option BoxComment)
    (resp : Response) (comment : Comment)
    (hbox : env.jsonUnmarshalBoxComment e.DataComponentInput = .ok box)
    (hreq : env.httpNewRequest = .ok ())
    (hdo : env.clientDo (queryValues box) = .ok resp)
    (hdec : env.jsonDecodeComment resp.Body = .ok (some comment)) :
    countTotalLikes env e.DataComponentInput =
        .ret (wrapInt (likesSum comment.Data.Items), none) ∧
      (InInt (likesSum comment.Data.Items) →
        countTotalLikes env e.DataComponentInput = .ret (likesSum comment.Data.Items, none)) ∧
      articleHandler env e =
        .ret [⟨e.URL, e.Title, parseDate e.Date,
          if wrapInt (likesSum comment.Data.Items) > 0 then wrapInt (likesSum comment.Data.Items)
          else 0⟩] ∧
      (∀ other : Comment,
        other.Data.Items.map (fun item => item.Userlike) =
            comment.Data.Items.map (fun item => item.Userlike) →
          sumUserlike other.Data.Items = sumUserlike comment.Data.Items) := by
  have hc := countTotalLikes_decoded env e.DataComponentInput box resp comment hbox hreq hdo hdec
  refine ⟨hc, ?_, ?_, ?_⟩
  · intro hin
    rw [hc, wrapInt_of_inInt _ hin]
  · unfold articleHandler
    rw [hc]
    simp only [buildArticle, true_and]
    split_ifs <;> rfl
  · intro other h
    rw [sumUserlike_eq, sumUserlike_eq]
    unfold likesSum
    rw [h]

/-- Witness of C4: two top-level comments of 3 and 4 likes, the first with a reply, and one
pinned item: 7 is returned and stored. -/
theorem likes_is_top_level_sum_witness :
    countTotalLikes
        (sampleEnv 200 (.ok (some (sampleComment
          [sampleItem 3 [JSONValue.number "100"], sampleItem 4 []] [JSONValue.number "50"]))))
        samplePage.DataComponentInput = .ret (7, none) :=
  (likes_is_top_level_sum
    (sampleEnv 200 (.ok (some (sampleComment
      [sampleItem 3 [JSONValue.number "100"], sampleItem 4 []] [JSONValue.number "50"]))))
    samplePage (some sampleBox) ⟨200, "body"⟩
    (sampleComment [sampleItem 3 [JSONValue.number "100"], sampleItem 4 []]
      [JSONValue.number "50"])
    rfl rfl rfl rfl).2.1 (by decide)

/-- Counterexample to C4 as stated: for a batch whose one top-level comment has userlike -5,
countTotalLikes returns the sum -5, and the record the handler stores has Likes 0, not
the sum. -/
theorem likes_negative_sum_not_stored :
    likesSum (sampleComment [sampleItem (-5) []] []).Data.Items = -5 ∧
      countTotalLikes (sampleEnv 200 (.ok (some (sampleComment [sampleItem (-5) []] []))))
        samplePage.DataComponentInput = .ret (-5, none) ∧
      articleHandler (sampleEnv 200 (.ok (some (sampleComment [sampleItem (-5) []] []))))
        samplePage =
        .ret [⟨"https://vnexpress.net/a-4600000.html", "a", ⟨2024, 3, 15, 9, 30, 0⟩, 0⟩] :=
  ⟨by decide, by rfl, by rfl⟩

theorem countTotalLikes_withStatus (env : Env) (f : Int → Int) (blob : String) :
    countTotalLikes (withStatus env f) blob = countTotalLikes env blob := by
  unfold countTotalLikes withStatus
  cases env.jsonUnmarshalBoxComment blob with
  | error err => rfl
  | ok box =>
    cases env.httpNewRequest with
    | error err => rfl
    | ok u =>
      simp only
      cases env.clientDo (queryValues box) with
      | error err => rfl
      | ok resp => rfl

/-- Claim C5, as amended: for every article page whose engagement lookup ends in an error
(the configuration blob does not decode, the request cannot be built or has a network
error, or the response body does not decode), the article handler still emits exactly
one record for the article, with Likes 0; the status of the answer is never read, so
changing it changes nothing of what the handler emits. -/
theorem lookup_error_gives_zero_likes (env : Env) (e : ArticlePage) :
    (LookupErrors env e →
      articleHandler env e = .ret [⟨e.URL, e.Title, parseDate e.Date, 0⟩]) ∧
    (∀ f : Int → Int, articleHandler (withStatus env f) e = articleHandler env e) := by
  constructor
  · intro h
    unfold articleHandler countTotalLikes
    rcases h with ⟨err, h1⟩ | ⟨box, h1, h2⟩
    · simp [h1, buildArticle]
    · rcases h2 with ⟨err, h2⟩ | ⟨h2, h3⟩
      · simp [h1, h2, buildArticle]
      · rcases h3 with ⟨err, h3⟩ | ⟨resp, h3, err, h4⟩
        · simp [h1, h2, h3, buildArticle]
        · simp [h1, h2, h3, h4, buildArticle]
  · intro f
    unfold articleHandler
    rw [countTotalLikes_withStatus]

/-- Witness of C5: an answer of status 500 whose body is not JSON. -/
theorem lookup_error_gives_zero_likes_witness :
    articleHandler (sampleEnv 500 (.error "invalid character")) samplePage =
      .ret [⟨samplePage.URL, samplePage.Title, parseDate samplePage.Date, 0⟩] :=
  (lookup_error_gives_zero_likes (sampleEnv 500 (.error "invalid character")) samplePage).1
    (Or.inr ⟨some sampleBox, rfl, Or.inr ⟨rfl, Or.inr ⟨⟨500, "body"⟩, rfl,
      "invalid character", rfl⟩⟩⟩)

/-- Counterexample to C5 as stated: the comments API answers with status 500 and a body
that decodes to one comment of 3 likes; the lookup fails in the sense of the claim (a
non-2xx status), and the record emitted has Likes 3, not 0. -/
theorem status_500_keeps_likes :
    LookupFails (sampleEnv 500 (.ok (some (sampleComment [sampleItem 3 []] [])))) samplePage ∧
      articleHandler (sampleEnv 500 (.ok (some (sampleComment [sampleItem 3 []] []))))
        samplePage =
        .ret [⟨"https://vnexpress.net/a-4600000.html", "a", ⟨2024, 3, 15, 9, 30, 0⟩, 3⟩] :=
  ⟨Or.inr ⟨some sampleBox, rfl, rfl, Or.inr ⟨⟨500, "body"⟩, rfl, Or.inl (by decide)⟩⟩, by rfl⟩

/-- Claim C6 at its failing input: when the comments API answers with the body null, the
decoded Comment pointer is nil and countTotalLikes panics on comment.Data, so the handler
sends no record; a blob that is the literal null is harmless (the nil BoxComment gives an
empty query). -/
theorem null_body_panics :
    countTotalLikes nullBodyEnv "blob" =
        .panic "invalid memory address or nil pointer dereference" ∧
      articleHandler nullBodyEnv samplePage =
        .panic "invalid memory address or nil pointer dereference" ∧
      countTotalLikes nullBlobEnv "null" = .ret (4, none) :=
  ⟨by rfl, by rfl, by rfl⟩

/-- Claim C10: every record the article handler emits has a non-negative Likes: for every
outcome (totalLikes, err) of countTotalLikes the stored Likes is at least 0, it is 0
whenever err is not nil or totalLikes is not positive, and so every record sent by the
handler has Likes at least 0. -/
theorem article_likes_nonneg (e : ArticlePage) (totalLikes : Int) (err : Option Error) :
    0 ≤ (buildArticle e totalLikes err).Likes ∧
      ((err ≠ none ∨ totalLikes ≤ 0) → (buildArticle e totalLikes err).Likes = 0) ∧
      (∀ (env : Env) (records : List Article), articleHandler env e = .ret records →
        ∀ a ∈ records, 0 ≤ a.Likes) := by
  have key : ∀ (t : Int) (er : Option Error), 0 ≤ (buildArticle e t er).Likes := by
    intro t er
    simp only [buildArticle]
    split_ifs with h
    · exact le_of_lt h.2
    · exact le_refl _
  refine ⟨key totalLikes err, ?_, ?_⟩
  · intro h
    simp only [buildArticle]
    split_ifs with h2
    · rcases h with h | h
      · exact absurd h2.1 h
      · omega
    · rfl
  · intro env records h a ha
    unfold articleHandler at h
    cases hc : countTotalLikes env e.DataComponentInput with
    | panic msg => rw [hc] at h; exact Outcome.noConfusion h
    | ret r =>
      rw [hc] at h
      simp only [Outcome.ret.injEq] at h
      subst h
      simp only [List.mem_singleton] at ha
      subst ha
      exact key _ _

/-- Witness of C10: a negative total without error, and a positive total with an error,
both store 0. -/
theorem article_likes_nonneg_witness :
    (buildArticle samplePage (-5) none).Likes = 0 ∧
      (buildArticle samplePage 9 (some "timeout")).Likes = 0 :=
  ⟨(article_likes_nonneg samplePage (-5) none).2.1 (Or.inr (by decide)),
    (article_likes_nonneg samplePage 9 (some "timeout")).2.1 (Or.inl (by simp))⟩

end News
